import Mathlib

/-!
Verification of the secure-and-simple-file-upload-for-iot-devices workflow.

The two Lambda handlers (`doc_upload_response.py`, the presigned-URL Issuer,
and `doc_upload_processing.py`, the upload-complete Processor) are embedded
shallowly: Python strings are modelled as lists of Unicode code points
(`PyStr`), byte strings as lists of `Nat` below 256, dictionaries as
association lists with Python's insert-or-overwrite semantics, and the
observable effects of each handler (MQTT publishes, S3 uploads/deletes) as
explicit action traces.  SDK calls (S3, IoT) are oracles supplied as part of
a `World` value.
-/

namespace DocUpload

/-- A Python `str`, modelled as its sequence of Unicode code points. -/
abbrev PyStr := List Nat

/-- Convert a Lean string literal to its code-point model (used only to
write concrete inputs in theorems). -/
def strCp (s : String) : PyStr := s.data.map Char.toNat

/-- Python `dict.__setitem__`: overwrite the value at the first occurrence
of the key, keeping its position; otherwise append the new binding. -/
def dictInsert (d : List (PyStr × PyStr)) (k v : PyStr) : List (PyStr × PyStr) :=
  match d with
  | [] => [(k, v)]
  | (k', v') :: rest => if k' = k then (k, v) :: rest else (k', v') :: dictInsert rest k v

/-- Python `dict.get(k, dflt)`. -/
def dictGetD (d : List (PyStr × PyStr)) (k : PyStr) (dflt : PyStr) : PyStr :=
  (List.lookup k d).getD dflt

/-! ### Hexadecimal (Base16) codec

`s2b16low` in `doc_upload_response.py` is `b16encode(s.encode('utf-8')).decode('utf-8').lower()`;
`b16low2s` in `doc_upload_processing.py` is `b16decode(s, casefold=True).decode('utf-8')`.
The byte-to-hex layer is modelled here, the UTF-8 layer below. -/

/-- Lower-case hex digit character code of a nibble (`0`-`9`, `a`-`f`).
This is the lower-cased output alphabet of `b16encode(..).lower()`. -/
def hexDigitLow (n : Nat) : Nat := if n < 10 then 48 + n else 87 + n

/-- Hex-encode a byte string, two lower-case hex characters per byte,
as `b16encode(bytes).decode('utf-8').lower()` does. -/
def hexEncodeLow : List Nat → PyStr
  | [] => []
  | b :: bs => hexDigitLow (b / 16) :: hexDigitLow (b % 16) :: hexEncodeLow bs

/-- Value of one hex digit character; both cases accepted, matching
`b16decode(s, casefold=True)` and `binascii.unhexlify`. -/
def hexDigitVal (c : Nat) : Option Nat :=
  if 48 ≤ c ∧ c ≤ 57 then some (c - 48)
  else if 97 ≤ c ∧ c ≤ 102 then some (c - 87)
  else if 65 ≤ c ∧ c ≤ 70 then some (c - 55)
  else none

/-- Hex-decode a string to bytes; fails (`binascii.Error` in Python) on odd
length or any non-hex character. -/
def hexDecode : PyStr → Option (List Nat)
  | [] => some []
  | c1 :: c2 :: rest =>
    match hexDigitVal c1, hexDigitVal c2, hexDecode rest with
    | some h, some l, some bs => some ((h * 16 + l) :: bs)
    | _, _, _ => none
  | [_] => none

/-- A valid Unicode scalar value: in range and not a surrogate. -/
def ValidCp (c : Nat) : Prop := c < 1114112 ∧ ¬(55296 ≤ c ∧ c ≤ 57343)

/-- All code points of a string are valid scalar values. -/
def ValidStr (s : PyStr) : Prop := ∀ c ∈ s, ValidCp c

/-- UTF-8 encoding of one code point. -/
def utf8EncodeCp (c : Nat) : List Nat :=
  if c < 128 then [c]
  else if c < 2048 then [192 + c / 64, 128 + c % 64]
  else if c < 65536 then [224 + c / 4096, 128 + c / 64 % 64, 128 + c % 64]
  else [240 + c / 262144, 128 + c / 4096 % 64, 128 + c / 64 % 64, 128 + c % 64]

/-- `str.encode('utf-8')`. -/
def utf8Encode : PyStr → List Nat
  | [] => []
  | c :: cs => utf8EncodeCp c ++ utf8Encode cs

/-- A UTF-8 continuation byte (high bits `10`). -/
def isCont (b : Nat) : Bool := 128 ≤ b && b < 192

/-- Code point assembled from a 2-byte sequence. -/
def cp2 (b b2 : Nat) : Nat := (b - 192) * 64 + (b2 - 128)

/-- Code point assembled from a 3-byte sequence. -/
def cp3 (b b2 b3 : Nat) : Nat := (b - 224) * 4096 + (b2 - 128) * 64 + (b3 - 128)

/-- Code point assembled from a 4-byte sequence. -/
def cp4 (b b2 b3 b4 : Nat) : Nat :=
  (b - 240) * 262144 + (b2 - 128) * 4096 + (b3 - 128) * 64 + (b4 - 128)

/-- Strict UTF-8 decoding, `bytes.decode('utf-8')`: rejects stray or missing
continuation bytes, overlong encodings, surrogates and code points above
U+10FFFF (all of which raise `UnicodeDecodeError` in Python). -/
def utf8Decode : List Nat → Option PyStr
  | [] => some []
  | b :: rest =>
    if b < 128 then (utf8Decode rest).map (fun s => b :: s)
    else if b < 194 then none
    else if b < 224 then
      match rest with
      | b2 :: rest2 =>
        if isCont b2 then (utf8Decode rest2).map (fun s => cp2 b b2 :: s) else none
      | [] => none
    else if b < 240 then
      match rest with
      | b2 :: b3 :: rest3 =>
        if isCont b2 && isCont b3 then
          if cp3 b b2 b3 < 2048 ∨ (55296 ≤ cp3 b b2 b3 ∧ cp3 b b2 b3 ≤ 57343) then none
          else (utf8Decode rest3).map (fun s => cp3 b b2 b3 :: s)
        else none
      | _ => none
    else if b < 245 then
      match rest with
      | b2 :: b3 :: b4 :: rest4 =>
        if isCont b2 && isCont b3 && isCont b4 then
          if cp4 b b2 b3 b4 < 65536 ∨ 1114112 ≤ cp4 b b2 b3 b4 then none
          else (utf8Decode rest4).map (fun s => cp4 b b2 b3 b4 :: s)
        else none
      | _ => none
    else none

/-- `s2b16low` (doc_upload_response.py): lower-case hex of the UTF-8 bytes. -/
def s2b16low (s : PyStr) : PyStr := hexEncodeLow (utf8Encode s)

/-- `b16low2s` (doc_upload_processing.py): `b16decode(s, casefold=True).decode('utf-8')`;
`none` models the raised `binascii.Error` / `UnicodeDecodeError`. -/
def b16low2s (s : PyStr) : Option PyStr := (hexDecode s).bind utf8Decode

/-- Base64 alphabet character for a 6-bit value. -/
def b64Char (n : Nat) : Nat :=
  if n < 26 then 65 + n
  else if n < 52 then 97 + (n - 26)
  else if n < 62 then 48 + (n - 52)
  else if n = 62 then 43 else 47

/-- Inverse of the Base64 alphabet. -/
def b64CharVal (c : Nat) : Option Nat :=
  if 65 ≤ c ∧ c ≤ 90 then some (c - 65)
  else if 97 ≤ c ∧ c ≤ 122 then some (c - 71)
  else if 48 ≤ c ∧ c ≤ 57 then some (c + 4)
  else if c = 43 then some 62
  else if c = 47 then some 63
  else none

/-- `base64.b64encode(bytes).decode()`: 3-byte groups to 4 characters, with
`=` (61) padding for a trailing group of 1 or 2 bytes. -/
def b64encode : List Nat → PyStr
  | [] => []
  | [b1] => [b64Char (b1 / 4), b64Char (b1 % 4 * 16), 61, 61]
  | [b1, b2] => [b64Char (b1 / 4), b64Char (b1 % 4 * 16 + b2 / 16), b64Char (b2 % 16 * 4), 61]
  | b1 :: b2 :: b3 :: rest =>
    b64Char (b1 / 4) :: b64Char (b1 % 4 * 16 + b2 / 16) ::
      b64Char (b2 % 16 * 4 + b3 / 64) :: b64Char (b3 % 64) :: b64encode rest

/-- Strict Base64 decoding: 4-character groups, `=` padding only at the end. -/
def b64decode : PyStr → Option (List Nat)
  | [] => some []
  | c1 :: c2 :: c3 :: c4 :: rest =>
    if c4 = 61 then
      if rest.isEmpty then
        if c3 = 61 then
          match b64CharVal c1, b64CharVal c2 with
          | some v1, some v2 => if v2 % 16 = 0 then some [v1 * 4 + v2 / 16] else none
          | _, _ => none
        else
          match b64CharVal c1, b64CharVal c2, b64CharVal c3 with
          | some v1, some v2, some v3 =>
            if v3 % 4 = 0 then some [v1 * 4 + v2 / 16, v2 % 16 * 16 + v3 / 4] else none
          | _, _, _ => none
      else none
    else
      match b64CharVal c1, b64CharVal c2, b64CharVal c3, b64CharVal c4, b64decode rest with
      | some v1, some v2, some v3, some v4, some bs =>
        some ((v1 * 4 + v2 / 16) :: (v2 % 16 * 16 + v3 / 4) :: (v3 % 4 * 64 + v4) :: bs)
      | _, _, _, _, _ => none
  | _ => none

/-- `md5_to_b64md5` (doc_upload_response.py): `b64encode(unhexlify(md5)).decode()`.
`none` models the `binascii.Error` raised by `unhexlify` on a string that is not
valid even-length hex. -/
def md5_to_b64md5 (md5 : PyStr) : Option PyStr := (hexDecode md5).map b64encode

/-! ### Metadata codec (dict level) -/

/-- Loop body of `encode_metadata` (doc_upload_response.py): each key and
value encoded with `s2b16low` and set into an initially empty dict. -/
def encode_metadata_aux (acc : List (PyStr × PyStr)) :
    List (PyStr × PyStr) → List (PyStr × PyStr)
  | [] => acc
  | (k, v) :: rest => encode_metadata_aux (dictInsert acc (s2b16low k) (s2b16low v)) rest

/-- `encode_metadata` (doc_upload_response.py). -/
def encode_metadata (m : List (PyStr × PyStr)) : List (PyStr × PyStr) :=
  encode_metadata_aux [] m

/-- Loop body of `decode_metadata` (doc_upload_processing.py): each key and
value decoded with `b16low2s` and set into an initially empty dict; `none`
models the `binascii.Error` / `UnicodeDecodeError` that propagates out of
the loop when any entry is malformed. -/
def decode_metadata_aux (acc : List (PyStr × PyStr)) :
    List (PyStr × PyStr) → Option (List (PyStr × PyStr))
  | [] => some acc
  | (k, v) :: rest =>
    match b16low2s k, b16low2s v with
    | some k2, some v2 => decode_metadata_aux (dictInsert acc k2 v2) rest
    | _, _ => none

/-- `decode_metadata` (doc_upload_processing.py). -/
def decode_metadata (m : List (PyStr × PyStr)) : Option (List (PyStr × PyStr)) :=
  decode_metadata_aux [] m

/-- Python `str.replace(old, new)` for an empty `old`: `new` is inserted
before every character and at the end. -/
def interleaveRep (new : PyStr) : PyStr → PyStr
  | [] => new
  | c :: rest => new ++ c :: interleaveRep new rest

/-- Scanning pass of Python `str.replace` for a non-empty `old`: replace each
leftmost non-overlapping occurrence.  `fuel` only drives structural
termination; callers pass the string's length, which bounds the recursion
depth, so the `fuel = 0` arm is never reached. -/
def pyReplaceAux (old new : PyStr) : Nat → PyStr → PyStr
  | _, [] => []
  | 0, rest => rest
  | fuel + 1, c :: rest =>
    if old.isPrefixOf (c :: rest) then
      new ++ pyReplaceAux old new fuel ((c :: rest).drop old.length)
    else c :: pyReplaceAux old new fuel rest

/-- Python `str.replace(old, new)`. -/
def pyReplace (s old new : PyStr) : PyStr :=
  match old with
  | [] => interleaveRep new s
  | _ :: _ => pyReplaceAux old new s.length s

/-- `os.path.join(a, b)` on POSIX: `b` if `b` is absolute; `a ++ b` if `a`
is empty or ends with a slash; otherwise `a ++ "/" ++ b`. -/
def osJoin (a b : PyStr) : PyStr :=
  if b.head? = some 47 then b
  else if a = [] then b
  else if a.getLast? = some 47 then a ++ b
  else a ++ 47 :: b

/-! ### Shared constants (metadata keys and literals from the sources) -/

/-- The metadata key `org-mqtt-topic`. -/
def kTopic : PyStr := strCp "org-mqtt-topic"

/-- The metadata key `requestUuid`. -/
def kUuid : PyStr := strCp "requestUuid"

/-- The fallback value `NotFound` used by the Processor's failure ack. -/
def vNotFound : PyStr := strCp "NotFound"

/-- `CONTENT_TYPE = "application/zip"` (doc_upload_response.py). -/
def contentTypeZip : PyStr := strCp "application/zip"

/-- The header name `content-type`. -/
def hContentType : PyStr := strCp "content-type"

/-- The header name `content-md5`. -/
def hContentMd5 : PyStr := strCp "content-md5"

/-- The header-name fragment `x-amz-meta-` prepended to each metadata key. -/
def hAmzMeta : PyStr := strCp "x-amz-meta-"

/-! ### The Issuer: `doc_upload_response.py` -/

namespace Response

/-- The inbound request event, restricted to the three fields the handler
reads.  A `none` field models the key being absent from the event dict. -/
structure ReqEvent where
  topic : Option PyStr
  requestUuid : Option PyStr
  md5 : Option PyStr

/-- `is_payload_ok`: the expected keys `{topic, requestUuid, md5}` minus the
payload's keys must be empty. -/
def is_payload_ok (e : ReqEvent) : Bool :=
  e.topic.isSome && e.requestUuid.isSome && e.md5.isSome

/-- `make_metadata`: the dict literal
`{org-mqtt-topic: event[topic], requestUuid: event[requestUuid]}`. -/
def make_metadata (topic uuid : PyStr) : List (PyStr × PyStr) :=
  [(kTopic, topic), (kUuid, uuid)]

/-- Loop body of `make_headers`: `headers['x-amz-meta-' + k] = v`. -/
def make_headers_aux (acc : List (PyStr × PyStr)) :
    List (PyStr × PyStr) → List (PyStr × PyStr)
  | [] => acc
  | (k, v) :: rest => make_headers_aux (dictInsert acc (hAmzMeta ++ k) v) rest

/-- `make_headers`: content-type and content-md5 headers plus one
`x-amz-meta-*` header per encoded metadata entry. -/
def make_headers (metadata : List (PyStr × PyStr)) (content_type md5_encoded : PyStr) :
    List (PyStr × PyStr) :=
  make_headers_aux [(hContentType, content_type), (hContentMd5, md5_encoded)] metadata

/-- Environment variables of the Issuer Lambda. -/
structure IssuerEnv where
  stgBucket : PyStr
  reqKw : PyStr
  respKw : PyStr

/-- Oracle for the Issuer's external SDK calls: the presigned URL returned
by S3 (`none` models a raised `ClientError`), the `uuid4()` object key, and
`time.time()` in whole seconds. -/
structure IssuerWorld where
  presignUrl : Option PyStr
  freshKey : PyStr
  now : Nat

/-- The `{md5e, exp, url}` dict returned by `get_presigned_url`. -/
structure Presigned where
  md5e : PyStr
  exp : Nat
  url : PyStr
deriving DecidableEq

/-- The JSON payload published by the Issuer. -/
structure RespPayload where
  requestUuid : PyStr
  url : PyStr
  expiration : Nat
  headers : List (PyStr × PyStr)
deriving DecidableEq

/-- One `iot_client.publish` call performed by the Issuer (qos is fixed at 1). -/
structure Published where
  topic : PyStr
  payload : RespPayload
deriving DecidableEq

/-- The exception classes that can propagate out of the Issuer handler.
`PayloadException` is defined in the source but never raised by any path. -/
inductive IssuerErr where
  | attributeError   -- `AttributeError("Non compliant payload")`
  | keyError         -- dict subscript on a missing key
  | binasciiError    -- `unhexlify` on a string that is not valid hex
  | clientError      -- storage SDK failure in `generate_presigned_url`
deriving DecidableEq

/-- `get_presigned_url`: converts the checksum (a `binascii.Error` escapes),
asks the storage oracle for a presigned PUT URL (a `ClientError` is logged
and re-raised), and returns `{md5e, exp, url}` with
`exp = int((time.time() + expire) * 1000)`. -/
def get_presigned_url (w : IssuerWorld) (metadata : List (PyStr × PyStr))
    (content_type md5 bucket key : PyStr) (expire : Nat) : Except IssuerErr Presigned :=
  match md5_to_b64md5 md5 with
  | none => .error .binasciiError
  | some md5e =>
    match w.presignUrl with
    | none => .error .clientError
    | some url => .ok ⟨md5e, (w.now + expire) * 1000, url⟩

/-- `lambda_handler` (doc_upload_response.py): returns the MQTT publishes
performed, in order, and the exception that propagates to the Lambda
runtime, if any.  The final `if not isinstance(e, PayloadException): raise`
always re-raises, because no code path raises `PayloadException`. -/
def lambda_handler (env : IssuerEnv) (w : IssuerWorld) (e : ReqEvent) :
    List Published × Option IssuerErr :=
  let tryBlock : Except IssuerErr Published :=
    if is_payload_ok e then
      match e.topic, e.requestUuid, e.md5 with
      | some topic, some uuid, some md5 =>
        let em := encode_metadata (make_metadata topic uuid)
        match get_presigned_url w em contentTypeZip md5 env.stgBucket w.freshKey 900 with
        | .error err => .error err
        | .ok resp =>
          let headers := make_headers em contentTypeZip resp.md5e
          .ok ⟨pyReplace topic env.reqKw env.respKw, ⟨uuid, resp.url, resp.exp, headers⟩⟩
      | _, _, _ => .error .keyError  -- unreachable: `is_payload_ok` ensures presence
    else .error .attributeError      -- `raise AttributeError("Non compliant payload")`
  match tryBlock with
  | .ok pub => ([pub], none)
  | .error err =>
    match e.topic with
    | none => ([], some .keyError)   -- `event['topic']` raises before the publish
    | some topic =>
      ([⟨pyReplace topic env.reqKw env.respKw, ⟨e.requestUuid.getD [], [], 0, []⟩⟩],
       some err)

end Response

/-! ### The Processor: `doc_upload_processing.py` -/

namespace Processing

/-- The listing of one extracted directory, in `os.listdir` order: each entry
is a regular file or a subdirectory with its own listing. -/
inductive Listing where
  | nil : Listing
  | consFile (name : PyStr) (rest : Listing) : Listing
  | consDir (name : PyStr) (sub : Listing) (rest : Listing) : Listing
deriving DecidableEq

/-- A staged S3 object: its (encoded) custom metadata and, when it is a
well-formed ZIP archive, the directory tree it extracts to (`none` models
`BadZipFile`). -/
structure StagedObj where
  metadataE : List (PyStr × PyStr)
  zipContent : Option Listing
deriving DecidableEq

/-- The S3 bucket/key pair carried by one record of the trigger event. -/
structure S3Record where
  bucket : PyStr
  key : PyStr
deriving DecidableEq

/-- The JSON acknowledgement payload `{success, requestUuid}`. -/
structure AckPayload where
  success : Bool
  requestUuid : PyStr
deriving DecidableEq

/-- The externally visible side effects of the Processor, in order:
`upload_file` to the store bucket, `iot_client.publish` (qos fixed at 1),
and `delete_object`. -/
inductive Action where
  | upload (bucket : PyStr) (key : PyStr)
  | publish (topic : PyStr) (payload : AckPayload)
  | deleteObject (bucket : PyStr) (key : PyStr)
deriving DecidableEq

/-- The exception classes that can reach the per-record `except` block. -/
inductive ProcErr where
  | invalidMetadata  -- `InvalidMetadata`
  | decodeError      -- `binascii.Error` / `UnicodeDecodeError` from `decode_metadata`
  | keyError         -- dict subscript on a missing key
  | badZipFile       -- `zipfile.BadZipFile`
deriving DecidableEq

/-- Environment variables of the Processor Lambda. -/
structure ProcEnv where
  storeBucket : PyStr
  reqKw : PyStr
  ackKw : PyStr

/-- The staging store: maps a bucket and key to the object stored there. -/
abbrev S3World := PyStr → PyStr → Option StagedObj

/-- `check_metadata`: `{org-mqtt-topic, requestUuid}` must be a subset of
the decoded metadata's keys. -/
def check_metadata (mdata : List (PyStr × PyStr)) : Bool :=
  (List.lookup kTopic mdata).isSome && (List.lookup kUuid mdata).isSome

/-- `process_dir`: walk one directory listing in order; upload each regular
file to the store bucket at `"{partition}/{os.path.join(cu_path, name)}"`;
recurse into subdirectories with the extended relative path. -/
def process_dir (env : ProcEnv) (partition : PyStr) : PyStr → Listing → List Action
  | _, .nil => []
  | cu, .consFile name rest =>
    .upload env.storeBucket (partition ++ 47 :: osJoin cu name) ::
      process_dir env partition cu rest
  | cu, .consDir name sub rest =>
    process_dir env partition (osJoin cu name) sub ++ process_dir env partition cu rest

/-- The relative paths of all regular files in a listing, in walk order
(specification-side companion of `process_dir`). -/
def listingFiles : PyStr → Listing → List PyStr
  | _, .nil => []
  | cu, .consFile name rest => osJoin cu name :: listingFiles cu rest
  | cu, .consDir name sub rest => listingFiles (osJoin cu name) sub ++ listingFiles cu rest

/-- The per-record `except` block (lines 144-161): if `org-mqtt-topic` is in
the current `mdata`, publish `{success: false, requestUuid: mdata.get(
'requestUuid', 'NotFound')}` on the derived ack topic; otherwise only log. -/
def failAck (env : ProcEnv) (mdata : List (PyStr × PyStr)) : List Action :=
  match List.lookup kTopic mdata with
  | some t => [.publish (pyReplace t env.reqKw env.ackKw) ⟨false, dictGetD mdata kUuid vNotFound⟩]
  | none => []

/-- The body of the per-record `try` (lines 105-142) together with its
`except` block: returns the record's actions, the value of the `mdata`
variable after the record, and the exception re-raised by the `except`
block, if any. -/
def processRecord (env : ProcEnv) (w : S3World) (mdata : List (PyStr × PyStr))
    (r : S3Record) : List Action × List (PyStr × PyStr) × Option ProcErr :=
  match w r.bucket r.key with
  | none =>
    -- `head_object` raises ClientError, wrapped as InvalidMetadata (111-112);
    -- `mdata` keeps its previous value
    (failAck env mdata, mdata, some .invalidMetadata)
  | some obj =>
    match decode_metadata obj.metadataE with
    | none =>
      -- decode errors are not ClientError: they reach the outer `except`
      -- unwrapped, and `mdata` keeps its previous value
      (failAck env mdata, mdata, some .decodeError)
    | some md =>
      if check_metadata md then
        match List.lookup kTopic md, List.lookup kUuid md with
        | some partition, some uuid =>
          match obj.zipContent with
          | none => (failAck env md, md, some .badZipFile)
          | some listing =>
            (process_dir env partition [] listing ++
              [.publish (pyReplace partition env.reqKw env.ackKw) ⟨true, uuid⟩,
               .deleteObject r.bucket r.key],
             md, none)
        | _, _ => (failAck env md, md, some .keyError)  -- unreachable given the check
      else (failAck env md, md, some .invalidMetadata)  -- "Missing metadata key(s)"

/-- The record loop of `lambda_handler` (lines 101-162): records are
processed in order; a record whose `except` block runs ends the invocation
by re-raising (line 162). -/
def procLoop (env : ProcEnv) (w : S3World) :
    List (PyStr × PyStr) → List S3Record → List Action × Option ProcErr
  | _, [] => ([], none)
  | mdata, r :: rest =>
    match processRecord env w mdata r with
    | (acts, _, some e) => (acts, some e)
    | (acts, mdata2, none) =>
      let tail := procLoop env w mdata2 rest
      (acts ++ tail.1, tail.2)

/-- `lambda_handler` (doc_upload_processing.py): `mdata = {}` is initialised
once, before the record loop. -/
def lambda_handler (env : ProcEnv) (w : S3World) (records : List S3Record) :
    List Action × Option ProcErr :=
  procLoop env w [] records

end Processing

instance decValidCp (c : Nat) : Decidable (ValidCp c) := by
  unfold ValidCp; infer_instance

instance decValidStr (s : PyStr) : Decidable (ValidStr s) := by
  unfold ValidStr; infer_instance

/-! ### Codec lemmas -/

theorem hexDigitVal_hexDigitLow (n : Nat) (h : n < 16) :
    hexDigitVal (hexDigitLow n) = some n := by
  unfold hexDigitLow hexDigitVal
  by_cases h10 : n < 10
  · rw [if_pos h10, if_pos (by omega : 48 ≤ 48 + n ∧ 48 + n ≤ 57)]
    exact congrArg some (by omega)
  · rw [if_neg h10, if_neg (by omega : ¬(48 ≤ 87 + n ∧ 87 + n ≤ 57)),
        if_pos (by omega : 97 ≤ 87 + n ∧ 87 + n ≤ 102)]
    exact congrArg some (by omega)

theorem hexDecode_hexEncodeLow (bs : List Nat) (h : ∀ b ∈ bs, b < 256) :
    hexDecode (hexEncodeLow bs) = some bs := by
  induction bs with
  | nil => rfl
  | cons b rest ih =>
    have hb : b < 256 := h b (by simp)
    rw [hexEncodeLow]
    simp only [hexDecode]
    rw [hexDigitVal_hexDigitLow _ (by omega : b / 16 < 16),
        hexDigitVal_hexDigitLow _ (by omega : b % 16 < 16),
        ih (fun x hx => h x (List.mem_cons_of_mem _ hx))]
    have hbeq : b / 16 * 16 + b % 16 = b := by omega
    simp [hbeq]

/-- Every byte produced by `hexDecode` is below 256. -/
theorem hexDecode_lt256 : ∀ (s : PyStr) (bs : List Nat),
    hexDecode s = some bs → ∀ b ∈ bs, b < 256
  | [], bs, h => by
    simp only [hexDecode, Option.some.injEq] at h
    subst h; intro b hb; cases hb
  | c1 :: c2 :: rest, bs, h => by
    simp only [hexDecode] at h
    cases h1 : hexDigitVal c1 with
    | none => rw [h1] at h; cases h
    | some v1 =>
      cases h2 : hexDigitVal c2 with
      | none => rw [h1, h2] at h; cases h
      | some v2 =>
        cases h3 : hexDecode rest with
        | none => rw [h1, h2, h3] at h; cases h
        | some tl =>
          rw [h1, h2, h3] at h
          simp only [Option.some.injEq] at h
          subst h
          intro b hb
          have hv1 : v1 < 16 := by
            unfold hexDigitVal at h1; split_ifs at h1 <;>
              simp only [Option.some.injEq] at h1 <;> omega
          have hv2 : v2 < 16 := by
            unfold hexDigitVal at h2; split_ifs at h2 <;>
              simp only [Option.some.injEq] at h2 <;> omega
          rcases List.mem_cons.mp hb with rfl | hmem
          · omega
          · exact hexDecode_lt256 rest tl h3 b hmem
  | [_], bs, h => by simp only [hexDecode] at h; cases h

/-- Hex decoding halves the length. -/
theorem hexDecode_length : ∀ (s : PyStr) (bs : List Nat),
    hexDecode s = some bs → 2 * bs.length = s.length
  | [], bs, h => by
    simp only [hexDecode, Option.some.injEq] at h; subst h; rfl
  | c1 :: c2 :: rest, bs, h => by
    simp only [hexDecode] at h
    cases h1 : hexDigitVal c1 with
    | none => rw [h1] at h; cases h
    | some v1 =>
      cases h2 : hexDigitVal c2 with
      | none => rw [h1, h2] at h; cases h
      | some v2 =>
        cases h3 : hexDecode rest with
        | none => rw [h1, h2, h3] at h; cases h
        | some tl =>
          rw [h1, h2, h3] at h
          simp only [Option.some.injEq] at h
          subst h
          have := hexDecode_length rest tl h3
          simp [List.length_cons]; omega
  | [_], bs, h => by simp only [hexDecode] at h; cases h

/-! ### UTF-8 codec

Python `str` values are sequences of Unicode scalar values; `.encode('utf-8')`
and `bytes.decode('utf-8')` are the strict UTF-8 transforms (the decoder
rejects overlong forms, surrogates and out-of-range code points with
`UnicodeDecodeError`). -/

theorem utf8EncodeCp_lt256 (c : Nat) (hc : c < 1114112) :
    ∀ b ∈ utf8EncodeCp c, b < 256 := by
  intro b hb
  unfold utf8EncodeCp at hb
  split_ifs at hb <;> simp at hb <;> omega

theorem utf8Encode_lt256 (s : PyStr) (h : ∀ c ∈ s, c < 1114112) :
    ∀ b ∈ utf8Encode s, b < 256 := by
  induction s with
  | nil => intro b hb; cases hb
  | cons c cs ih =>
    intro b hb
    rw [utf8Encode] at hb
    rcases List.mem_append.mp hb with hl | hr
    · exact utf8EncodeCp_lt256 c (h c (List.mem_cons_self c cs)) b hl
    · exact ih (fun x hx => h x (List.mem_cons_of_mem _ hx)) b hr

/-- One-step unfolding of `utf8Decode` on a cons cell. -/
theorem utf8Decode_cons (b : Nat) (rest : List Nat) :
    utf8Decode (b :: rest) =
      (if b < 128 then (utf8Decode rest).map (fun s => b :: s)
      else if b < 194 then none
      else if b < 224 then
        match rest with
        | b2 :: rest2 =>
          if isCont b2 then (utf8Decode rest2).map (fun s => cp2 b b2 :: s) else none
        | [] => none
      else if b < 240 then
        match rest with
        | b2 :: b3 :: rest3 =>
          if isCont b2 && isCont b3 then
            if cp3 b b2 b3 < 2048 ∨ (55296 ≤ cp3 b b2 b3 ∧ cp3 b b2 b3 ≤ 57343) then none
            else (utf8Decode rest3).map (fun s => cp3 b b2 b3 :: s)
          else none
        | _ => none
      else if b < 245 then
        match rest with
        | b2 :: b3 :: b4 :: rest4 =>
          if isCont b2 && isCont b3 && isCont b4 then
            if cp4 b b2 b3 b4 < 65536 ∨ 1114112 ≤ cp4 b b2 b3 b4 then none
            else (utf8Decode rest4).map (fun s => cp4 b b2 b3 b4 :: s)
          else none
        | _ => none
      else none) := by
  cases rest with
  | nil => rfl
  | cons b2 r2 =>
    cases r2 with
    | nil => rfl
    | cons b3 r3 =>
      cases r3 with
      | nil => rfl
      | cons b4 r4 => rfl

/-- Decoding the UTF-8 encoding of a valid code point prepends it. -/
theorem utf8Decode_encCp (c : Nat) (hv : ValidCp c) (t : List Nat) :
    utf8Decode (utf8EncodeCp c ++ t) = (utf8Decode t).map (fun s => c :: s) := by
  obtain ⟨hlt, hsur⟩ := hv
  by_cases h1 : c < 128
  · rw [utf8EncodeCp, if_pos h1, List.singleton_append, utf8Decode_cons, if_pos h1]
  · by_cases h2 : c < 2048
    · rw [utf8EncodeCp, if_neg h1, if_pos h2, List.cons_append, List.singleton_append]
      have e1 : ¬(192 + c / 64 < 128) := by omega
      have e2 : ¬(192 + c / 64 < 194) := by omega
      have e3 : 192 + c / 64 < 224 := by omega
      have e4 : isCont (128 + c % 64) = true := by
        simp only [isCont, Bool.and_eq_true, decide_eq_true_eq]; omega
      have hrec : cp2 (192 + c / 64) (128 + c % 64) = c := by
        simp only [cp2]; omega
      rw [utf8Decode_cons, if_neg e1, if_neg e2, if_pos e3]
      show (if isCont (128 + c % 64) = true then _ else _) = _
      rw [if_pos e4, hrec]
    · by_cases h3 : c < 65536
      · rw [utf8EncodeCp, if_neg h1, if_neg h2, if_pos h3, List.cons_append,
          List.cons_append, List.singleton_append]
        have e1 : ¬(224 + c / 4096 < 128) := by omega
        have e2 : ¬(224 + c / 4096 < 194) := by omega
        have e3 : ¬(224 + c / 4096 < 224) := by omega
        have e4 : 224 + c / 4096 < 240 := by omega
        have e5 : (isCont (128 + c / 64 % 64) && isCont (128 + c % 64)) = true := by
          simp only [isCont, Bool.and_eq_true, decide_eq_true_eq]; omega
        have hrec : cp3 (224 + c / 4096) (128 + c / 64 % 64) (128 + c % 64) = c := by
          simp only [cp3]; omega
        have e6 : ¬(c < 2048 ∨ (55296 ≤ c ∧ c ≤ 57343)) := by omega
        rw [utf8Decode_cons, if_neg e1, if_neg e2, if_neg e3, if_pos e4]
        show (if (isCont (128 + c / 64 % 64) && isCont (128 + c % 64)) = true
            then _ else _) = _
        rw [if_pos e5, hrec, if_neg e6]
      · rw [utf8EncodeCp, if_neg h1, if_neg h2, if_neg h3, List.cons_append,
          List.cons_append, List.cons_append, List.singleton_append]
        have e1 : ¬(240 + c / 262144 < 128) := by omega
        have e2 : ¬(240 + c / 262144 < 194) := by omega
        have e3 : ¬(240 + c / 262144 < 224) := by omega
        have e4 : ¬(240 + c / 262144 < 240) := by omega
        have e5 : 240 + c / 262144 < 245 := by omega
        have e6 : (isCont (128 + c / 4096 % 64) && isCont (128 + c / 64 % 64) &&
            isCont (128 + c % 64)) = true := by
          simp only [isCont, Bool.and_eq_true, decide_eq_true_eq]; omega
        have hrec : cp4 (240 + c / 262144) (128 + c / 4096 % 64) (128 + c / 64 % 64)
            (128 + c % 64) = c := by
          simp only [cp4]; omega
        have e7 : ¬(c < 65536 ∨ 1114112 ≤ c) := by omega
        rw [utf8Decode_cons, if_neg e1, if_neg e2, if_neg e3, if_neg e4, if_pos e5]
        show (if (isCont (128 + c / 4096 % 64) && isCont (128 + c / 64 % 64) &&
            isCont (128 + c % 64)) = true then _ else _) = _
        rw [if_pos e6, hrec, if_neg e7]

/-- UTF-8 round trip: strict decoding inverts encoding on valid strings. -/
theorem utf8Decode_utf8Encode (s : PyStr) (h : ValidStr s) :
    utf8Decode (utf8Encode s) = some s := by
  induction s with
  | nil => rfl
  | cons c cs ih =>
    rw [utf8Encode, utf8Decode_encCp c (h c (List.mem_cons_self c cs)),
        ih (fun x hx => h x (List.mem_cons_of_mem _ hx))]
    rfl

/-! ### The string codec of the two Lambda files -/

theorem b16low2s_s2b16low (s : PyStr) (h : ValidStr s) : b16low2s (s2b16low s) = some s := by
  unfold b16low2s s2b16low
  rw [hexDecode_hexEncodeLow _ (utf8Encode_lt256 s (fun c hc => (h c hc).1))]
  simp only [Option.some_bind]
  exact utf8Decode_utf8Encode s h

/-- `s2b16low` is injective on valid strings (consequence of the round trip). -/
theorem s2b16low_inj (a b : PyStr) (ha : ValidStr a) (hb : ValidStr b)
    (h : s2b16low a = s2b16low b) : a = b := by
  have h1 := b16low2s_s2b16low a ha
  have h2 := b16low2s_s2b16low b hb
  rw [h, h2] at h1
  exact (Option.some.injEq _ _).mp h1.symm

/-! ### Base64 codec

`md5_to_b64md5` in `doc_upload_response.py` is `b64encode(unhexlify(md5)).decode()`.
`b64decode` below is the standard strict Base64 decoder (RFC 4648), used to state
the spec's "base64-decoded" round-trip property. -/

theorem b64CharVal_b64Char (n : Nat) (h : n < 64) : b64CharVal (b64Char n) = some n := by
  unfold b64Char b64CharVal
  split_ifs <;> first
    | (exact congrArg some (by omega))
    | (exfalso; omega)

/-- The padding character is not in the Base64 alphabet. -/
theorem b64Char_ne_pad (n : Nat) : ¬(b64Char n = 61) := by
  unfold b64Char; split_ifs <;> omega

/-- Base64 round trip: decoding the encoding of any byte string returns it. -/
theorem b64decode_b64encode : ∀ (bs : List Nat), (∀ b ∈ bs, b < 256) →
    b64decode (b64encode bs) = some bs
  | [], _ => rfl
  | [b1], h => by
    have hb : b1 < 256 := h b1 (by simp)
    rw [show b64encode [b1] = [b64Char (b1 / 4), b64Char (b1 % 4 * 16), 61, 61] from rfl]
    simp only [b64decode, List.isEmpty]
    rw [b64CharVal_b64Char _ (by omega), b64CharVal_b64Char _ (by omega)]
    have e1 : (b1 % 4 * 16) % 16 = 0 := by omega
    simp [e1]
    all_goals omega
  | [b1, b2], h => by
    have hb1 : b1 < 256 := h b1 (by simp)
    have hb2 : b2 < 256 := h b2 (by simp)
    rw [show b64encode [b1, b2] =
      [b64Char (b1 / 4), b64Char (b1 % 4 * 16 + b2 / 16), b64Char (b2 % 16 * 4), 61] from rfl]
    simp only [b64decode, List.isEmpty]
    rw [b64CharVal_b64Char _ (by omega), b64CharVal_b64Char _ (by omega),
        b64CharVal_b64Char _ (by omega)]
    have e0 : ¬(b64Char (b2 % 16 * 4) = 61) := b64Char_ne_pad _
    have e1 : (b2 % 16 * 4) % 4 = 0 := by omega
    simp [e0, e1]
    all_goals omega
  | b1 :: b2 :: b3 :: r1 :: rest, h => by
    have hb1 : b1 < 256 := h b1 (by simp)
    have hb2 : b2 < 256 := h b2 (by simp)
    have hb3 : b3 < 256 := h b3 (by simp)
    have ih := b64decode_b64encode (r1 :: rest) (fun x hx => h x (by simp [List.mem_cons] at hx ⊢; tauto))
    rw [show b64encode (b1 :: b2 :: b3 :: r1 :: rest) =
      b64Char (b1 / 4) :: b64Char (b1 % 4 * 16 + b2 / 16) ::
        b64Char (b2 % 16 * 4 + b3 / 64) :: b64Char (b3 % 64) :: b64encode (r1 :: rest) from rfl]
    simp only [b64decode]
    rw [b64CharVal_b64Char _ (by omega), b64CharVal_b64Char _ (by omega),
        b64CharVal_b64Char _ (by omega), b64CharVal_b64Char _ (by omega), ih]
    have e0 : ¬(b64Char (b3 % 64) = 61) := b64Char_ne_pad _
    simp [e0]
    constructorm* _ ∧ _ <;> omega
  | [b1, b2, b3], h => by
    have hb1 : b1 < 256 := h b1 (by simp)
    have hb2 : b2 < 256 := h b2 (by simp)
    have hb3 : b3 < 256 := h b3 (by simp)
    rw [show b64encode [b1, b2, b3] =
      [b64Char (b1 / 4), b64Char (b1 % 4 * 16 + b2 / 16),
        b64Char (b2 % 16 * 4 + b3 / 64), b64Char (b3 % 64)] from rfl]
    simp only [b64decode]
    rw [b64CharVal_b64Char _ (by omega), b64CharVal_b64Char _ (by omega),
        b64CharVal_b64Char _ (by omega), b64CharVal_b64Char _ (by omega)]
    have e0 : ¬(b64Char (b3 % 64) = 61) := b64Char_ne_pad _
    simp [e0]
    constructorm* _ ∧ _ <;> omega

/-- Inserting a key absent from the dict appends the binding. -/
theorem dictInsert_of_not_mem : ∀ (d : List (PyStr × PyStr)) (k v : PyStr),
    (∀ q ∈ d, q.1 ≠ k) → dictInsert d k v = d ++ [(k, v)]
  | [], _, _, _ => rfl
  | (k1, v1) :: rest, k, v, h => by
    simp only [dictInsert]
    rw [if_neg (h (k1, v1) (by simp)), dictInsert_of_not_mem rest k v
      (fun q hq => h q (List.mem_cons_of_mem _ hq))]
    simp

/-- `encode_metadata_aux` appends the per-entry encodings when the encoded
keys are fresh and pairwise distinct. -/
theorem encode_metadata_aux_eq : ∀ (m acc : List (PyStr × PyStr)),
    (∀ p ∈ m, ∀ q ∈ acc, s2b16low p.1 ≠ q.1) →
    (m.map (fun p => s2b16low p.1)).Nodup →
    encode_metadata_aux acc m = acc ++ m.map (fun p => (s2b16low p.1, s2b16low p.2))
  | [], acc, _, _ => by simp [encode_metadata_aux]
  | (k, v) :: rest, acc, hdisj, hnd => by
    simp only [encode_metadata_aux]
    have hk : ∀ q ∈ acc, q.1 ≠ s2b16low k :=
      fun q hq => (hdisj (k, v) (by simp) q hq).symm
    rw [dictInsert_of_not_mem acc _ _ hk]
    simp only [List.map_cons, List.nodup_cons] at hnd
    rw [encode_metadata_aux_eq rest (acc ++ [(s2b16low k, s2b16low v)]) ?hd hnd.2]
    · simp
    case hd =>
      intro p hp q hq
      rcases List.mem_append.mp hq with hqa | hqk
      · exact hdisj p (List.mem_cons_of_mem _ hp) q hqa
      · have : q = (s2b16low k, s2b16low v) := by simpa using hqk
        subst this
        intro hcontra
        have hc2 : s2b16low p.1 = s2b16low k := hcontra
        exact hnd.1 (by
          rw [← hc2]
          exact List.mem_map_of_mem _ hp)

/-- `decode_metadata_aux` inverts the per-entry encoding when the original
keys are distinct, fresh, and the strings valid. -/
theorem decode_metadata_aux_enc : ∀ (m acc : List (PyStr × PyStr)),
    (∀ p ∈ m, ValidStr p.1 ∧ ValidStr p.2) →
    (∀ p ∈ m, ∀ q ∈ acc, p.1 ≠ q.1) →
    (m.map Prod.fst).Nodup →
    decode_metadata_aux acc (m.map (fun p => (s2b16low p.1, s2b16low p.2))) = some (acc ++ m)
  | [], acc, _, _, _ => by simp [decode_metadata_aux]
  | (k, v) :: rest, acc, hv, hdisj, hnd => by
    simp only [List.map_cons, decode_metadata_aux]
    rw [b16low2s_s2b16low k (hv (k, v) (by simp)).1,
        b16low2s_s2b16low v (hv (k, v) (by simp)).2]
    show decode_metadata_aux (dictInsert acc k v)
      (rest.map (fun p => (s2b16low p.1, s2b16low p.2))) = _
    have hk : ∀ q ∈ acc, q.1 ≠ k := fun q hq => (hdisj (k, v) (by simp) q hq).symm
    rw [dictInsert_of_not_mem acc _ _ hk]
    simp only [List.map_cons, List.nodup_cons] at hnd
    rw [decode_metadata_aux_enc rest (acc ++ [(k, v)])
      (fun p hp => hv p (List.mem_cons_of_mem _ hp)) ?hd hnd.2]
    · simp
    case hd =>
      intro p hp q hq
      rcases List.mem_append.mp hq with hqa | hqk
      · exact hdisj p (List.mem_cons_of_mem _ hp) q hqa
      · have : q = (k, v) := by simpa using hqk
        subst this
        intro hcontra
        have hc2 : p.1 = k := hcontra
        exact hnd.1 (by
          rw [← hc2]
          exact List.mem_map_of_mem _ hp)

/-! ### Python string helpers used by both handlers -/

namespace Processing

/-- `process_dir` uploads exactly the regular files of the walked listing,
each at `{partition}/{relative path}`, in walk order. -/
theorem process_dir_eq_files (env : ProcEnv) (partition : PyStr) :
    ∀ (l : Listing) (cu : PyStr),
    process_dir env partition cu l =
      (listingFiles cu l).map (fun rel => Action.upload env.storeBucket (partition ++ 47 :: rel))
  | .nil, cu => rfl
  | .consFile name rest, cu => by
    simp only [process_dir, listingFiles, List.map_cons]
    rw [process_dir_eq_files env partition rest cu]
  | .consDir name sub rest, cu => by
    simp only [process_dir, listingFiles, List.map_append]
    rw [process_dir_eq_files env partition sub (osJoin cu name),
        process_dir_eq_files env partition rest cu]

/-- One step of the record loop: a record whose `except` block re-raises
ends the invocation with exactly that record's actions. -/
theorem procLoop_cons_error (env : ProcEnv) (w : S3World)
    (mdata : List (PyStr × PyStr)) (r : S3Record) (rest : List S3Record)
    (acts : List Action) (md2 : List (PyStr × PyStr)) (e : ProcErr)
    (h : processRecord env w mdata r = (acts, md2, some e)) :
    procLoop env w mdata (r :: rest) = (acts, some e) := by
  simp only [procLoop, h]

/-- One step of the record loop: a successful record contributes its actions
and its decoded metadata becomes the loop state for the remaining records. -/
theorem procLoop_cons_ok (env : ProcEnv) (w : S3World)
    (mdata : List (PyStr × PyStr)) (r : S3Record) (rest : List S3Record)
    (acts : List Action) (md2 : List (PyStr × PyStr))
    (h : processRecord env w mdata r = (acts, md2, none)) :
    procLoop env w mdata (r :: rest) =
      ((acts ++ (procLoop env w md2 rest).1), (procLoop env w md2 rest).2) := by
  simp only [procLoop, h]

end Processing

/-! ### Claim theorems -/

/-- C3: for every string-keyed, string-valued mapping whose keys and values
are valid UTF-8 strings (and whose keys are distinct, as in any Python
dict), decoding the encoded mapping returns the original mapping:
`decode_metadata(encode_metadata(m)) == m`. -/
theorem C3_metadata_roundtrip (m : List (PyStr × PyStr))
    (hnd : (m.map Prod.fst).Nodup)
    (hv : ∀ p ∈ m, ValidStr p.1 ∧ ValidStr p.2) :
    decode_metadata (encode_metadata m) = some m := by
  have hnd2 : (m.map (fun p => s2b16low p.1)).Nodup := by
    have h1 : m.map (fun p => s2b16low p.1) = (m.map Prod.fst).map s2b16low := by
      rw [List.map_map]; rfl
    rw [h1]
    refine List.Nodup.map_on ?inj hnd
    intro x hx y hy hxy
    obtain ⟨px, hpx, rfl⟩ := List.mem_map.mp hx
    obtain ⟨py, hpy, rfl⟩ := List.mem_map.mp hy
    rw [s2b16low_inj _ _ (hv px hpx).1 (hv py hpy).1 hxy]
  unfold encode_metadata decode_metadata
  rw [encode_metadata_aux_eq m [] (fun p _ q hq => absurd hq (List.not_mem_nil q)) hnd2,
      List.nil_append,
      decode_metadata_aux_enc m [] hv (fun p _ q hq => absurd hq (List.not_mem_nil q)) hnd,
      List.nil_append]

/-- Witness for C3 at a concrete two-entry mapping with a multi-byte
character in one value. -/
theorem C3_witness :
    (([(strCp "org-mqtt-topic", strCp "foo/docUpldReq/bar"),
       (strCp "requestUuid", strCp "ué€")] : List (PyStr × PyStr)).map Prod.fst).Nodup ∧
    (∀ p ∈ ([(strCp "org-mqtt-topic", strCp "foo/docUpldReq/bar"),
       (strCp "requestUuid", strCp "ué€")] : List (PyStr × PyStr)),
        ValidStr p.1 ∧ ValidStr p.2) ∧
    decode_metadata (encode_metadata
      [(strCp "org-mqtt-topic", strCp "foo/docUpldReq/bar"),
       (strCp "requestUuid", strCp "ué€")]) =
      some [(strCp "org-mqtt-topic", strCp "foo/docUpldReq/bar"),
            (strCp "requestUuid", strCp "ué€")] :=
  ⟨by decide, by decide, C3_metadata_roundtrip _ (by decide) (by decide)⟩

/-- C8: for every valid 32-character hexadecimal checksum, `md5_to_b64md5`
produces a string that base64-decodes to the 16 raw bytes of the checksum. -/
theorem C8_b64md5_roundtrip (h : PyStr) (bs : List Nat)
    (hlen : h.length = 32) (hdec : hexDecode h = some bs) :
    md5_to_b64md5 h = some (b64encode bs) ∧
    b64decode (b64encode bs) = some bs ∧ bs.length = 16 := by
  refine ⟨?e1, ?e2, ?e3⟩
  · unfold md5_to_b64md5; rw [hdec]; rfl
  · exact b64decode_b64encode bs (hexDecode_lt256 h bs hdec)
  · have := hexDecode_length h bs hdec
    omega

/-- Witness for C8 at a concrete checksum. -/
theorem C8_witness :
    (strCp "00112233445566778899aabbccddeeff").length = 32 ∧
    hexDecode (strCp "00112233445566778899aabbccddeeff") =
      some [0, 17, 34, 51, 68, 85, 102, 119, 136, 153, 170, 187, 204, 221, 238, 255] ∧
    (md5_to_b64md5 (strCp "00112233445566778899aabbccddeeff") =
      some (b64encode [0, 17, 34, 51, 68, 85, 102, 119, 136, 153, 170, 187, 204, 221, 238, 255]) ∧
     b64decode (b64encode [0, 17, 34, 51, 68, 85, 102, 119, 136, 153, 170, 187, 204, 221, 238, 255]) =
      some [0, 17, 34, 51, 68, 85, 102, 119, 136, 153, 170, 187, 204, 221, 238, 255] ∧
     ([0, 17, 34, 51, 68, 85, 102, 119, 136, 153, 170, 187, 204, 221, 238, 255] : List Nat).length = 16) :=
  ⟨by decide, by decide, C8_b64md5_roundtrip _ _ (by decide) (by decide)⟩

/-- C7: a request carrying `topic` and `requestUuid` but no `md5` makes the
Issuer publish, on the reply topic derived by keyword substitution, a
response whose url is empty, whose expiration is 0 and whose headers
mapping is empty, carrying the request's `requestUuid`. -/
theorem C7_missing_md5_response (env : Response.IssuerEnv) (w : Response.IssuerWorld)
    (t u : PyStr) :
    (Response.lambda_handler env w ⟨some t, some u, none⟩).1 =
      [⟨pyReplace t env.reqKw env.respKw, ⟨u, [], 0, []⟩⟩] := rfl

/-- C9: a request event with no `topic` field raises a KeyError while the
failure path derives the reply topic, before any fallback response can be
published, so nothing is published for such events. -/
theorem C9_missing_topic_raises (env : Response.IssuerEnv) (w : Response.IssuerWorld)
    (e : Response.ReqEvent) (h : e.topic = none) :
    Response.lambda_handler env w e = ([], some .keyError) := by
  obtain ⟨t, u, m⟩ := e
  have h2 : t = none := h
  subst h2
  rfl

/-- Witness for C9 at a concrete topic-less event. -/
theorem C9_witness :
    (Response.ReqEvent.mk none (some (strCp "u1")) (some (strCp "ff"))).topic = none ∧
    Response.lambda_handler ⟨strCp "stg", strCp "docUpldReq", strCp "docUpldResp"⟩
      ⟨some (strCp "https://x"), strCp "key1", 5⟩
      ⟨none, some (strCp "u1"), some (strCp "ff")⟩ = ([], some .keyError) :=
  ⟨rfl, C9_missing_topic_raises _ _ _ rfl⟩

/-- C2: at a request missing `md5` (with `topic` and `requestUuid` present)
the Issuer does publish the negative response, but then re-raises the
`AttributeError` to its caller: the `isinstance(e, PayloadException)` guard
never fires because `PayloadException` is never raised by any path, so the
payload-validation rejection propagates, contrary to the documented
"do not raise to caller" intent. -/
theorem C2_code_behavior (env : Response.IssuerEnv) (w : Response.IssuerWorld)
    (t u : PyStr) :
    Response.lambda_handler env w ⟨some t, some u, none⟩ =
      ([⟨pyReplace t env.reqKw env.respKw, ⟨u, [], 0, []⟩⟩],
       some Response.IssuerErr.attributeError) := rfl

/-- C4 (amended): a record whose metadata fetch fails (object missing, the
storage client raises) is signalled as InvalidMetadata, while a record
whose metadata decoding fails (keys or values that are not valid hex, or
not valid UTF-8 after un-hexing) is signalled as the decode error itself,
not as InvalidMetadata: the inner `try` catches only the client error. -/
theorem C4_fetch_decode_errors (env : Processing.ProcEnv) (w : Processing.S3World)
    (mdata : List (PyStr × PyStr)) (r : Processing.S3Record) (e : Processing.ProcErr)
    (h : (w r.bucket r.key = none ∧ e = .invalidMetadata) ∨
         (∃ obj, w r.bucket r.key = some obj ∧ decode_metadata obj.metadataE = none ∧
           e = .decodeError)) :
    (Processing.processRecord env w mdata r).2.2 = some e := by
  rcases h with ⟨hw, rfl⟩ | ⟨obj, hw, hdec, rfl⟩
  · simp only [Processing.processRecord, hw]
  · simp only [Processing.processRecord, hw, hdec]

/-- C4 (counterexample): a record whose staged object's metadata key `zz`
is not valid hexadecimal fails with the decode error, not InvalidMetadata. -/
theorem C4_counterexample :
    Processing.lambda_handler
      ⟨strCp "store", strCp "docUpldReq", strCp "docUpldAck"⟩
      (fun b k => if b = strCp "stg" ∧ k = strCp "obj1"
        then some ⟨[(strCp "zz", strCp "zz")], none⟩ else none)
      [⟨strCp "stg", strCp "obj1"⟩] = ([], some .decodeError) ∧
    Processing.ProcErr.decodeError ≠ Processing.ProcErr.invalidMetadata := by decide

/-- Witness for C4 (amended) at a record whose object is missing. -/
theorem C4_witness :
    ((fun (_ _ : PyStr) => (none : Option Processing.StagedObj))
        (strCp "b") (strCp "k") = none ∧
      Processing.ProcErr.invalidMetadata = Processing.ProcErr.invalidMetadata) ∧
    (Processing.processRecord ⟨strCp "s", strCp "q", strCp "a"⟩
      (fun _ _ => none) [] ⟨strCp "b", strCp "k"⟩).2.2 = some .invalidMetadata :=
  ⟨⟨rfl, rfl⟩, C4_fetch_decode_errors _ _ _ _ _ (Or.inl ⟨rfl, rfl⟩)⟩

/-- C5: a record that succeeds uploads every regular file of the extracted
tree to the store bucket at `{partition}/{relative path}` (in walk order),
then publishes `{success: true, requestUuid}` on the ack topic derived by
keyword substitution, then deletes the source object. -/
theorem C5_success_trace (env : Processing.ProcEnv) (w : Processing.S3World)
    (r : Processing.S3Record) (obj : Processing.StagedObj)
    (md : List (PyStr × PyStr)) (t u : PyStr) (listing : Processing.Listing)
    (hobj : w r.bucket r.key = some obj)
    (hdec : decode_metadata obj.metadataE = some md)
    (ht : List.lookup kTopic md = some t)
    (hu : List.lookup kUuid md = some u)
    (hzip : obj.zipContent = some listing) :
    Processing.lambda_handler env w [r] =
      ((Processing.listingFiles [] listing).map
          (fun rel => Processing.Action.upload env.storeBucket (t ++ 47 :: rel)) ++
        [.publish (pyReplace t env.reqKw env.ackKw) ⟨true, u⟩,
         .deleteObject r.bucket r.key], none) := by
  have hcheck : Processing.check_metadata md = true := by
    unfold Processing.check_metadata
    rw [ht, hu]; rfl
  have hpr : Processing.processRecord env w [] r =
      (Processing.process_dir env t [] listing ++
        [.publish (pyReplace t env.reqKw env.ackKw) ⟨true, u⟩,
         .deleteObject r.bucket r.key], md, none) := by
    simp only [Processing.processRecord, hobj, hdec, hcheck, ht, hu, hzip]
    simp
  unfold Processing.lambda_handler
  rw [Processing.procLoop_cons_ok env w [] r [] _ _ hpr,
      Processing.process_dir_eq_files env t listing []]
  simp [Processing.procLoop]

/-- Witness for C5 at a concrete ZIP holding `a.txt` and `sub/b.txt`, as in
the spec's test scenario. -/
theorem C5_witness :
    ((fun b k => if b = strCp "stg" ∧ k = strCp "o9"
        then some (Processing.StagedObj.mk
          (encode_metadata [(kTopic, strCp "foo/docUpldReq/bar"), (kUuid, strCp "u9")])
          (some (.consFile (strCp "a.txt")
            (.consDir (strCp "sub") (.consFile (strCp "b.txt") .nil) .nil))))
        else none : Processing.S3World) (strCp "stg") (strCp "o9") =
      some (Processing.StagedObj.mk
        (encode_metadata [(kTopic, strCp "foo/docUpldReq/bar"), (kUuid, strCp "u9")])
        (some (.consFile (strCp "a.txt")
          (.consDir (strCp "sub") (.consFile (strCp "b.txt") .nil) .nil))))) ∧
    Processing.lambda_handler ⟨strCp "store", strCp "docUpldReq", strCp "docUpldAck"⟩
      (fun b k => if b = strCp "stg" ∧ k = strCp "o9"
        then some (Processing.StagedObj.mk
          (encode_metadata [(kTopic, strCp "foo/docUpldReq/bar"), (kUuid, strCp "u9")])
          (some (.consFile (strCp "a.txt")
            (.consDir (strCp "sub") (.consFile (strCp "b.txt") .nil) .nil))))
        else none)
      [⟨strCp "stg", strCp "o9"⟩] =
      ((Processing.listingFiles []
          (.consFile (strCp "a.txt")
            (.consDir (strCp "sub") (.consFile (strCp "b.txt") .nil) .nil))).map
          (fun rel => Processing.Action.upload (strCp "store") (strCp "foo/docUpldReq/bar" ++ 47 :: rel)) ++
        [.publish (pyReplace (strCp "foo/docUpldReq/bar") (strCp "docUpldReq") (strCp "docUpldAck"))
          ⟨true, strCp "u9"⟩,
         .deleteObject (strCp "stg") (strCp "o9")], none) :=
  ⟨by decide,
   C5_success_trace ⟨strCp "store", strCp "docUpldReq", strCp "docUpldAck"⟩
     (fun b k => if b = strCp "stg" ∧ k = strCp "o9"
        then some (Processing.StagedObj.mk
          (encode_metadata [(kTopic, strCp "foo/docUpldReq/bar"), (kUuid, strCp "u9")])
          (some (.consFile (strCp "a.txt")
            (.consDir (strCp "sub") (.consFile (strCp "b.txt") .nil) .nil))))
        else none)
     ⟨strCp "stg", strCp "o9"⟩
     (Processing.StagedObj.mk
        (encode_metadata [(kTopic, strCp "foo/docUpldReq/bar"), (kUuid, strCp "u9")])
        (some (.consFile (strCp "a.txt")
          (.consDir (strCp "sub") (.consFile (strCp "b.txt") .nil) .nil))))
     [(strCp "org-mqtt-topic", strCp "foo/docUpldReq/bar"), (strCp "requestUuid", strCp "u9")]
     (strCp "foo/docUpldReq/bar") (strCp "u9")
     (.consFile (strCp "a.txt")
        (.consDir (strCp "sub") (.consFile (strCp "b.txt") .nil) .nil))
     (by decide) (by decide) (by decide) (by decide) (by decide)⟩

/-- C6: a record whose staged object's decoded metadata contains
`org-mqtt-topic` but lacks `requestUuid` makes the Processor publish
`{success: false, requestUuid: "NotFound"}` on the derived ack topic, and
the source object is not deleted. -/
theorem C6_missing_uuid_ack (env : Processing.ProcEnv) (w : Processing.S3World)
    (r : Processing.S3Record) (obj : Processing.StagedObj)
    (md : List (PyStr × PyStr)) (t : PyStr)
    (hobj : w r.bucket r.key = some obj)
    (hdec : decode_metadata obj.metadataE = some md)
    (ht : List.lookup kTopic md = some t)
    (hu : List.lookup kUuid md = none) :
    Processing.lambda_handler env w [r] =
      ([.publish (pyReplace t env.reqKw env.ackKw) ⟨false, vNotFound⟩],
        some .invalidMetadata) ∧
    ∀ b k, Processing.Action.deleteObject b k ∉ (Processing.lambda_handler env w [r]).1 := by
  have hcheck : Processing.check_metadata md = false := by
    unfold Processing.check_metadata
    rw [ht, hu]; rfl
  have hfail : Processing.failAck env md =
      [.publish (pyReplace t env.reqKw env.ackKw) ⟨false, vNotFound⟩] := by
    simp [Processing.failAck, ht, dictGetD, hu]
  have hpr : Processing.processRecord env w [] r =
      ([.publish (pyReplace t env.reqKw env.ackKw) ⟨false, vNotFound⟩],
        md, some .invalidMetadata) := by
    simp only [Processing.processRecord, hobj, hdec, hcheck, hfail]
    simp
  have hloop := Processing.procLoop_cons_error env w [] r [] _ _ _ hpr
  refine ⟨hloop, ?nodel⟩
  intro b k hmem
  have h1 : (Processing.lambda_handler env w [r]).1 =
      [.publish (pyReplace t env.reqKw env.ackKw) ⟨false, vNotFound⟩] :=
    congrArg Prod.fst hloop
  rw [h1] at hmem
  simp at hmem

/-- Witness for C6 at a staged object whose metadata only has the topic. -/
theorem C6_witness :
    ((fun b k => if b = strCp "stg" ∧ k = strCp "o3"
        then some (Processing.StagedObj.mk
          (encode_metadata [(kTopic, strCp "x/docUpldReq/y")]) none)
        else none : Processing.S3World) (strCp "stg") (strCp "o3") =
      some (Processing.StagedObj.mk
        (encode_metadata [(kTopic, strCp "x/docUpldReq/y")]) none)) ∧
    (Processing.lambda_handler ⟨strCp "store", strCp "docUpldReq", strCp "docUpldAck"⟩
      (fun b k => if b = strCp "stg" ∧ k = strCp "o3"
        then some (Processing.StagedObj.mk
          (encode_metadata [(kTopic, strCp "x/docUpldReq/y")]) none)
        else none)
      [⟨strCp "stg", strCp "o3"⟩] =
      ([.publish (pyReplace (strCp "x/docUpldReq/y") (strCp "docUpldReq") (strCp "docUpldAck"))
          ⟨false, vNotFound⟩], some .invalidMetadata) ∧
     ∀ b k, Processing.Action.deleteObject b k ∉
      (Processing.lambda_handler ⟨strCp "store", strCp "docUpldReq", strCp "docUpldAck"⟩
        (fun b k => if b = strCp "stg" ∧ k = strCp "o3"
          then some (Processing.StagedObj.mk
            (encode_metadata [(kTopic, strCp "x/docUpldReq/y")]) none)
          else none)
        [⟨strCp "stg", strCp "o3"⟩]).1) :=
  ⟨by decide,
   C6_missing_uuid_ack ⟨strCp "store", strCp "docUpldReq", strCp "docUpldAck"⟩
     (fun b k => if b = strCp "stg" ∧ k = strCp "o3"
        then some (Processing.StagedObj.mk
          (encode_metadata [(kTopic, strCp "x/docUpldReq/y")]) none)
        else none)
     ⟨strCp "stg", strCp "o3"⟩
     (Processing.StagedObj.mk (encode_metadata [(kTopic, strCp "x/docUpldReq/y")]) none)
     [(strCp "org-mqtt-topic", strCp "x/docUpldReq/y")]
     (strCp "x/docUpldReq/y")
     (by decide) (by decide) (by decide) (by decide)⟩

/-- C1 (amended): records are processed sequentially, and a record whose
except block runs publishes its own negative response (when the topic is
derivable) and then re-raises, aborting the processing of all remaining
records of the invocation. -/
theorem C1_failure_aborts (env : Processing.ProcEnv) (w : Processing.S3World)
    (r : Processing.S3Record) (rest : List Processing.S3Record)
    (acts : List Processing.Action) (md2 : List (PyStr × PyStr)) (e : Processing.ProcErr)
    (h : Processing.processRecord env w [] r = (acts, md2, some e)) :
    Processing.lambda_handler env w (r :: rest) = (acts, some e) := by
  unfold Processing.lambda_handler
  simp only [Processing.procLoop, h]

/-- C1 (counterexample): with a first record whose object is missing and a
second, fully valid record, the invocation raises after the first record
and performs none of the second record's effects, although the second
record alone would succeed. -/
theorem C1_counterexample :
    Processing.lambda_handler
      ⟨strCp "store", strCp "docUpldReq", strCp "docUpldAck"⟩
      (fun b k => if b = strCp "stg" ∧ k = strCp "o2"
        then some (Processing.StagedObj.mk
          (encode_metadata [(kTopic, strCp "a/docUpldReq/b"), (kUuid, strCp "u2")])
          (some (.consFile (strCp "f.txt") .nil)))
        else none)
      [⟨strCp "stg", strCp "o1"⟩, ⟨strCp "stg", strCp "o2"⟩] =
      ([], some .invalidMetadata) ∧
    Processing.lambda_handler
      ⟨strCp "store", strCp "docUpldReq", strCp "docUpldAck"⟩
      (fun b k => if b = strCp "stg" ∧ k = strCp "o2"
        then some (Processing.StagedObj.mk
          (encode_metadata [(kTopic, strCp "a/docUpldReq/b"), (kUuid, strCp "u2")])
          (some (.consFile (strCp "f.txt") .nil)))
        else none)
      [⟨strCp "stg", strCp "o2"⟩] =
      ([.upload (strCp "store") (strCp "a/docUpldReq/b/f.txt"),
        .publish (strCp "a/docUpldAck/b") ⟨true, strCp "u2"⟩,
        .deleteObject (strCp "stg") (strCp "o2")], none) := by decide

/-- Witness for C1 (amended) at a failing first record. -/
theorem C1_witness :
    Processing.processRecord ⟨strCp "s", strCp "q", strCp "a"⟩ (fun _ _ => none) []
      ⟨strCp "b", strCp "k"⟩ = ([], [], some .invalidMetadata) ∧
    Processing.lambda_handler ⟨strCp "s", strCp "q", strCp "a"⟩ (fun _ _ => none)
      [⟨strCp "b", strCp "k"⟩, ⟨strCp "b", strCp "k2"⟩] = ([], some .invalidMetadata) :=
  ⟨by decide,
   C1_failure_aborts ⟨strCp "s", strCp "q", strCp "a"⟩ (fun _ _ => none)
     ⟨strCp "b", strCp "k"⟩ [⟨strCp "b", strCp "k2"⟩] [] [] .invalidMetadata (by decide)⟩

/-- C10: the decoded-metadata variable is initialised once before the
record loop and reassigned only when a record's metadata is fetched and
decoded; if an earlier record succeeded and a later record fails before
decoding its own metadata, the later record's failure ack is published on
the earlier record's org-mqtt-topic with the earlier record's requestUuid. -/
theorem C10_stale_metadata (env : Processing.ProcEnv) (w : Processing.S3World)
    (r1 r2 : Processing.S3Record) (acts1 : List Processing.Action)
    (md1 : List (PyStr × PyStr)) (t1 u1 : PyStr)
    (h1 : Processing.processRecord env w [] r1 = (acts1, md1, none))
    (ht : List.lookup kTopic md1 = some t1)
    (hu : List.lookup kUuid md1 = some u1)
    (hfail2 : w r2.bucket r2.key = none ∨
      (∃ obj, w r2.bucket r2.key = some obj ∧ decode_metadata obj.metadataE = none)) :
    ∃ e, Processing.lambda_handler env w [r1, r2] =
      (acts1 ++ [.publish (pyReplace t1 env.reqKw env.ackKw) ⟨false, u1⟩], some e) := by
  have hgd : dictGetD md1 kUuid vNotFound = u1 := by
    unfold dictGetD; rw [hu]; rfl
  have hfa : Processing.failAck env md1 =
      [.publish (pyReplace t1 env.reqKw env.ackKw) ⟨false, u1⟩] := by
    simp [Processing.failAck, ht, hgd]
  unfold Processing.lambda_handler
  rw [Processing.procLoop_cons_ok env w [] r1 [r2] acts1 md1 h1]
  rcases hfail2 with hw2 | ⟨obj, hw2, hdec2⟩
  · refine ⟨.invalidMetadata, ?_⟩
    have h2 : Processing.processRecord env w md1 r2 =
        ([.publish (pyReplace t1 env.reqKw env.ackKw) ⟨false, u1⟩],
          md1, some .invalidMetadata) := by
      simp only [Processing.processRecord, hw2, hfa]
    rw [Processing.procLoop_cons_error env w md1 r2 [] _ _ _ h2]
  · refine ⟨.decodeError, ?_⟩
    have h2 : Processing.processRecord env w md1 r2 =
        ([.publish (pyReplace t1 env.reqKw env.ackKw) ⟨false, u1⟩],
          md1, some .decodeError) := by
      simp only [Processing.processRecord, hw2, hdec2, hfa]
    rw [Processing.procLoop_cons_error env w md1 r2 [] _ _ _ h2]

/-- Witness for C10: a first record that fully succeeds followed by a
record whose object is missing; the failure ack reuses the first record's
topic and uuid. -/
theorem C10_witness :
    Processing.processRecord ⟨strCp "store", strCp "docUpldReq", strCp "docUpldAck"⟩
      (fun b k => if b = strCp "stg" ∧ k = strCp "o1"
        then some (Processing.StagedObj.mk
          (encode_metadata [(kTopic, strCp "a/docUpldReq/b"), (kUuid, strCp "u1")])
          (some .nil))
        else none)
      [] ⟨strCp "stg", strCp "o1"⟩ =
      ([.publish (strCp "a/docUpldAck/b") ⟨true, strCp "u1"⟩,
        .deleteObject (strCp "stg") (strCp "o1")],
       [(strCp "org-mqtt-topic", strCp "a/docUpldReq/b"),
        (strCp "requestUuid", strCp "u1")], none) ∧
    ∃ e, Processing.lambda_handler ⟨strCp "store", strCp "docUpldReq", strCp "docUpldAck"⟩
      (fun b k => if b = strCp "stg" ∧ k = strCp "o1"
        then some (Processing.StagedObj.mk
          (encode_metadata [(kTopic, strCp "a/docUpldReq/b"), (kUuid, strCp "u1")])
          (some .nil))
        else none)
      [⟨strCp "stg", strCp "o1"⟩, ⟨strCp "stg", strCp "o2"⟩] =
      ([.publish (strCp "a/docUpldAck/b") ⟨true, strCp "u1"⟩,
        .deleteObject (strCp "stg") (strCp "o1")] ++
        [.publish (pyReplace (strCp "a/docUpldReq/b") (strCp "docUpldReq") (strCp "docUpldAck"))
          ⟨false, strCp "u1"⟩], some e) :=
  ⟨by decide,
   C10_stale_metadata ⟨strCp "store", strCp "docUpldReq", strCp "docUpldAck"⟩
     (fun b k => if b = strCp "stg" ∧ k = strCp "o1"
        then some (Processing.StagedObj.mk
          (encode_metadata [(kTopic, strCp "a/docUpldReq/b"), (kUuid, strCp "u1")])
          (some .nil))
        else none)
     ⟨strCp "stg", strCp "o1"⟩ ⟨strCp "stg", strCp "o2"⟩
     [.publish (strCp "a/docUpldAck/b") ⟨true, strCp "u1"⟩,
      .deleteObject (strCp "stg") (strCp "o1")]
     [(strCp "org-mqtt-topic", strCp "a/docUpldReq/b"),
      (strCp "requestUuid", strCp "u1")]
     (strCp "a/docUpldReq/b") (strCp "u1")
     (by decide) (by decide) (by decide) (Or.inl (by decide))⟩

end DocUpload

